import Mathlib

/-!
# ChronoLog: verification of the size-rotating log writer

Shallow embedding of `src/chronolog.go` (package `choronolog`): the log-level
strings, the configuration defaults, the line formatting performed by `write`
(including Go's `encoding/json` string escaping used by `json.Marshal`), the
size-tracked writer state, the rotation check, the rotate/compress/cleanup
file-system operations, and the fallible constructor.  Strings are modelled as
Lean `String` (sequences of Unicode scalar values), byte counts as UTF-8 byte
lengths, `int64` values as `Int`, durations as integer nanoseconds, and the
file system as an association list from paths to byte contents.
-/

set_option autoImplicit false

namespace ChronoLog

/-! ### Log levels (src/chronolog.go lines 14-41) -/

/-- Constant `LevelDebug LogLevel = iota`; a Go `LogLevel` is an `int`, embedded as `Int`. -/
def levelDebug : Int := 0

/-- Constant `LevelInfo`. -/
def levelInfo : Int := 1

/-- Constant `LevelWarning`. -/
def levelWarning : Int := 2

/-- Constant `LevelError`. -/
def levelError : Int := 3

/-- Constant `LevelFatal`. -/
def levelFatal : Int := 4

/-- Method `func (l LogLevel) String() string` (lines 26-41): switch over the five
constants with a `default` branch returning `"UNKNOWN"`. -/
def levelString (l : Int) : String :=
  if l = levelDebug then "DEBUG"
  else if l = levelInfo then "INFO"
  else if l = levelWarning then "WARNING"
  else if l = levelError then "ERROR"
  else if l = levelFatal then "FATAL"
  else "UNKNOWN"

/-! ### Configuration (lines 50-58) and defaults applied by `New` (lines 68-80) -/

/-- One nanosecond, the unit of Go `time.Duration`. -/
def nanosecond : Int := 1

/-- Constant `time.Second` in nanoseconds. -/
def second : Int := 1000000000

/-- Constant `time.Minute` in nanoseconds. -/
def minute : Int := 60 * second

/-- Constant `time.Hour` in nanoseconds. -/
def hour : Int := 60 * minute

/-- The Go layout constant `time.RFC3339`. -/
def rfc3339Layout : String := "2006-01-02T15:04:05Z07:00"

/-- Struct `type Config struct` (lines 50-58).  `MaxSize` is an `int64`, the two
durations are `time.Duration` (int64 nanoseconds). -/
structure Config where
  filePath : String
  maxSize : Int
  maxAge : Int
  compressOldLogs : Bool
  jsonFormat : Bool
  timestampFormat : String
  rotationCheckInterval : Int
  deriving Repr, DecidableEq

/-- The zero-field defaulting performed at the top of `New` (lines 69-80):
`MaxSize` 0 ↦ 50 MiB, `MaxAge` 0 ↦ one week, `TimestampFormat` "" ↦
`time.RFC3339`, `RotationCheckInterval` 0 ↦ one minute. -/
def defaultConfig (c : Config) : Config :=
  let c1 := if c.maxSize = 0 then { c with maxSize := 50 * 1024 * 1024 } else c
  let c2 := if c1.maxAge = 0 then { c1 with maxAge := 7 * 24 * hour } else c1
  let c3 := if c2.timestampFormat = "" then { c2 with timestampFormat := rfc3339Layout } else c2
  if c3.rotationCheckInterval = 0 then { c3 with rotationCheckInterval := minute } else c3

/-- Struct `type LogEntry struct` (lines 44-48): the three string fields carry the
JSON tags `timestamp`, `level`, `message`, in that order. -/
structure LogEntry where
  timestamp : String
  level : String
  message : String
  deriving Repr, DecidableEq

/-! ### Go `encoding/json` string escaping, as used by `json.Marshal`
(line 225).  `Marshal` of a struct of strings emits the fields in declaration
order and escapes each string with the default HTML-escaping encoder: `"`,
`\`, `\n`, `\r`, `\t` get two-character escapes, other control characters
below 0x20 and the HTML-sensitive characters 0x3c, 0x3e, 0x26 get
six-character u-escapes, as do the separators U+2028 and U+2029; every other
scalar value is copied verbatim. -/

/-- Lower-case hexadecimal digit for a nibble. -/
def hexDigit (n : Nat) : Char :=
  if n < 10 then Char.ofNat (48 + n) else Char.ofNat (87 + n)

/-- The six-character escape `\uXXXX` of a code point below 0x10000. -/
def uEscape (n : Nat) : List Char :=
  ['\\', 'u', hexDigit (n / 4096 % 16), hexDigit (n / 256 % 16),
    hexDigit (n / 16 % 16), hexDigit (n % 16)]

/-- Escape of a single character by Go's default (HTML-escaping) JSON
encoder. -/
def escChar (c : Char) : List Char :=
  if c = '\"' then ['\\', '\"']
  else if c = '\\' then ['\\', '\\']
  else if c = '\n' then ['\\', 'n']
  else if c = '\r' then ['\\', 'r']
  else if c = '\t' then ['\\', 't']
  else if c.toNat < 32 then uEscape c.toNat
  else if c = '<' ∨ c = '>' ∨ c = '&' then uEscape c.toNat
  else if c.toNat = 8232 ∨ c.toNat = 8233 then uEscape c.toNat
  else [c]

/-- Go JSON escaping of a whole string. -/
def goEscape (s : String) : String :=
  ⟨s.data.flatMap escChar⟩

/-- Numeric value of a lower-case hexadecimal digit. -/
def hexVal (c : Char) : Nat :=
  if 48 ≤ c.toNat ∧ c.toNat ≤ 57 then c.toNat - 48
  else if 97 ≤ c.toNat ∧ c.toNat ≤ 102 then c.toNat - 87
  else 0

/-- Decoder for JSON string escapes: the inverse direction of `escChar`,
used to state that an escaped message is recovered verbatim. -/
def unesc : List Char → List Char
  | [] => []
  | c :: t =>
    if c = '\\' then
      match t with
      | [] => []
      | d :: t2 =>
        if d = 'u' then
          match t2 with
          | h1 :: h2 :: h3 :: h4 :: t3 =>
              Char.ofNat (4096 * hexVal h1 + 256 * hexVal h2 + 16 * hexVal h3 + hexVal h4)
                :: unesc t3
          | _ => []
        else if d = '\"' then '\"' :: unesc t2
        else if d = '\\' then '\\' :: unesc t2
        else if d = 'n' then '\n' :: unesc t2
        else if d = 'r' then '\r' :: unesc t2
        else if d = 't' then '\t' :: unesc t2
        else unesc t2
    else c :: unesc t

/-- String-level wrapper of `unesc`. -/
def goUnescape (s : String) : String :=
  ⟨unesc s.data⟩

/-- Function `json.Marshal` applied to a `LogEntry` (line 225): one JSON object with
the fields `timestamp`, `level`, `message` in declaration order. -/
def jsonMarshalEntry (e : LogEntry) : String :=
  "\x7b\"timestamp\":\"" ++ goEscape e.timestamp ++ "\",\"level\":\"" ++ goEscape e.level
    ++ "\",\"message\":\"" ++ goEscape e.message ++ "\"\x7d"

/-! ### The writer (lines 213-243) -/

/-- UTF-8 byte length of a string: the byte count Go's `len` / `Fprintf`
return for it. -/
def utf8Len (s : String) : Nat :=
  (s.data.map Char.utf8Size).sum

/-- The mutable writer state guarded by `l.mu`: the content of the currently
open file (`l.file`, viewed through its append-only handle) and
`l.currentSize`. -/
structure LoggerSt where
  fileContent : String
  currentSize : Int
  deriving Repr, DecidableEq

/-- Method `openFile` (lines 96-114) on the state: the file is opened with
`O_WRONLY|O_APPEND|O_CREATE` on whatever content currently exists at the path
and `currentSize` is re-synced from `info.Size()`. -/
def openFileSt (existing : String) : LoggerSt :=
  { fileContent := existing, currentSize := (utf8Len existing : Int) }

/-- Line 218: the layout string passed to `time.Now().Format` in `write` is
the constant `time.RFC3339`; the configured `TimestampFormat` is not
consulted. -/
def writeTimestampLayout (_cfg : Config) : String :=
  rfc3339Layout

/-- The `LogEntry` built by `write` (lines 217-221).  `fmtTime` stands for
`time.Now().Format`: the rendering of the current instant under a given
layout string. -/
def mkEntry (cfg : Config) (fmtTime : String → String) (level : Int) (msg : String) : LogEntry :=
  { timestamp := fmtTime (writeTimestampLayout cfg)
    level := levelString level
    message := msg }

/-- The log line built by `write` (lines 223-234): JSON marshalling plus a
newline when `JSONFormat` is set, otherwise
`fmt.Sprintf("%s - [%s]: %s", ...)` plus a newline. -/
def writeLogLine (cfg : Config) (entry : LogEntry) : String :=
  if cfg.jsonFormat then jsonMarshalEntry entry ++ "\n"
  else entry.timestamp ++ " - [" ++ entry.level ++ "]: " ++ entry.message ++ "\n"

/-- The `fmt.Fprintf(l.file, "%s", logLine)` step (lines 236-242): on error
the message is reported to stderr and the call returns with the state
untouched; on success the line is appended and `currentSize` grows by the
byte count written. -/
def appendLine (line : String) (appendErr : Option String) (st : LoggerSt)
    (stderr : List String) : LoggerSt × List String :=
  match appendErr with
  | some e => (st, stderr ++ ["failed to write to log file: " ++ e])
  | none =>
      ({ fileContent := st.fileContent ++ line,
         currentSize := st.currentSize + (utf8Len line : Int) }, stderr)

/-- Method `write(level, message)` (lines 213-243) under the lock.  `marshalErr` and
`appendErr` inject the outcomes of the two fallible operations
(`json.Marshal`, `fmt.Fprintf`); `none` means success.  The function returns
the new state and stderr — `write` itself has no return value and raises
nothing to the caller. -/
def writeStep (cfg : Config) (fmtTime : String → String) (level : Int) (msg : String)
    (marshalErr appendErr : Option String) (st : LoggerSt) (stderr : List String) :
    LoggerSt × List String :=
  let entry := mkEntry cfg fmtTime level msg
  if cfg.jsonFormat then
    match marshalErr with
    | some e => (st, stderr ++ ["failed to marshal log entry: " ++ e])
    | none => appendLine (writeLogLine cfg entry) appendErr st stderr
  else
    appendLine (writeLogLine cfg entry) appendErr st stderr

/-- One tick of `rotationChecker` (lines 120-129) under the lock: rotation is
invoked exactly when `l.currentSize >= l.config.MaxSize`; a successful
rotation leaves a freshly created empty file at the path (the success path of
`rotate`, lines 136-165).  The boolean records whether `rotate` was
invoked. -/
def rotationTick (maxSize : Int) (st : LoggerSt) : LoggerSt × Bool :=
  if maxSize ≤ st.currentSize then (openFileSt "", true) else (st, false)

/-! ### Traces of the lock-serialized operations on the writer state -/

/-- The observable system state: writer state plus everything printed to
stderr so far. -/
structure SysSt where
  logger : LoggerSt
  stderrLog : List String
  deriving Repr

/-- One lock-serialized event: a call to `write` (with the injected outcomes
of its fallible operations and the formatter for the current instant) or one
tick of `rotationChecker`. -/
inductive LogEv where
  | writeEv (level : Int) (msg : String) (fmtTime : String → String)
      (marshalErr appendErr : Option String)
  | tickEv

/-- Small-step semantics of the serialized events. -/
def stepSys (cfg : Config) (s : SysSt) : LogEv → SysSt
  | .writeEv level msg fmtTime me ae =>
      let r := writeStep cfg fmtTime level msg me ae s.logger s.stderrLog
      { logger := r.1, stderrLog := r.2 }
  | .tickEv => { s with logger := (rotationTick cfg.maxSize s.logger).1 }

/-- A run of the logger: `New` opens the file on whatever content already
exists at the path (line 87 calls `openFile`), then the events execute in
lock order. -/
def runLogger (cfg : Config) (existing : String) (evs : List LogEv) : SysSt :=
  evs.foldl (stepSys cfg) { logger := openFileSt existing, stderrLog := [] }

/-! ### File-system model for rotation, compression and retention
(lines 136-211).  A file system is an association list from paths to byte
contents; lookup returns the most recent binding. -/

/-- Byte string: file contents. -/
abbrev Bytes := List Nat

/-- File system: paths to contents. -/
abbrev FS := List (String × Bytes)

/-- Content at a path, if the file exists. -/
def fsLookup (fs : FS) (p : String) : Option Bytes :=
  match fs with
  | [] => none
  | (q, d) :: rest => if q = p then some d else fsLookup rest p

/-- Delete a path. -/
def fsErase : FS → String → FS
  | [], _ => []
  | e :: rest, p => if e.1 = p then fsErase rest p else e :: fsErase rest p

/-- Create or overwrite a file. -/
def fsInsert (fs : FS) (p : String) (d : Bytes) : FS :=
  (p, d) :: fsErase fs p

/-- Method `compressFile(src, dst)` (lines 167-188) operating on the file-system
model.  `comp` is the gzip codec; `openErr`, `createErr`, `copyErr` inject
failures of `os.Open`, `os.Create` and `io.Copy`, and `closePartial = some k`
models an error at the deferred `gzWriter.Close()` after which only `k` bytes
of the compressed stream reached `dst`.  Faithful to the source, the deferred
`Close` errors are discarded: the function still returns success (`none`) in
that case. -/
def compressFile (comp : Bytes → Bytes) (fs : FS) (src dst : String)
    (openErr createErr copyErr : Option String) (closePartial : Option Nat) :
    FS × Option String :=
  match fsLookup fs src with
  | none => (fs, some "failed to open source file: file does not exist")
  | some data =>
    match openErr with
    | some e => (fs, some ("failed to open source file: " ++ e))
    | none =>
      match createErr with
      | some e => (fs, some ("failed to create destination file: " ++ e))
      | none =>
        match copyErr with
        | some e => (fsInsert fs dst [], some ("failed to compress data " ++ e))
        | none =>
          match closePartial with
          | none => (fsInsert fs dst (comp data), none)
          | some k => (fsInsert fs dst ((comp data).take k), none)

/-- The detached compression goroutine launched by `rotate` (lines 147-155):
run `compressFile(backup, backup + ".gz")`; on reported failure print to
stderr and keep the source; on reported success delete the uncompressed
source with `os.Remove` (whose own failure is printed and leaves the source
behind). -/
def compressJob (comp : Bytes → Bytes) (fs : FS) (backup : String)
    (openErr createErr copyErr : Option String) (closePartial : Option Nat)
    (removeErr : Option String) (stderr : List String) : FS × List String :=
  let r := compressFile comp fs backup (backup ++ ".gz") openErr createErr copyErr closePartial
  match r.2 with
  | some e => (r.1, stderr ++ ["failed to compress log file: " ++ e])
  | none =>
    match removeErr with
    | some e => (r.1, stderr ++ ["failed to remove old log file: " ++ e])
    | none => (fsErase r.1 backup, stderr)

/-- Method `rotate()` (lines 136-165) on the file-system model, success path aside
from the injected `file.Close()` failure: rename the live file to
`<path>.<timestamp>` and recreate an empty file at the path.  Returns the
backup name on success; the compression goroutine and the retention sweep run
afterwards as detached tasks. -/
def rotateFS (fs : FS) (path ts : String) (closeErr : Option String) :
    FS × Option String :=
  match closeErr with
  | some _ => (fs, none)
  | none =>
    match fsLookup fs path with
    | none => (fs, none)
    | some data =>
      let backup := path ++ "." ++ ts
      (fsInsert (fsInsert (fsErase fs path) backup data) path [], some backup)

/-! ### Retention sweep (`cleanupOldLogs`, lines 190-211) -/

/-- One file seen by the sweep: its name, its modification time (integer
nanoseconds), and the injected outcomes of `os.Stat` and `os.Remove` for
it. -/
structure DirEntry where
  name : String
  modTime : Int
  statFails : Bool
  removeErr : Option String
  deriving Repr, DecidableEq

/-- Membership in `filepath.Glob(l.config.FilePath + ".*.gz")`: the name is the
path, a dot, a run of non-separator characters, and the suffix `.gz`. -/
def globMatchGz (path name : String) : Bool :=
  (path ++ ".").data.isPrefixOf name.data &&
  (".gz" : String).data.isSuffixOf name.data &&
  decide (path.length + 1 + 3 ≤ name.length) &&
  !(((name.data.drop (path.length + 1)).take (name.length - path.length - 4)).contains '/')

/-- The loop of `cleanupOldLogs` (lines 199-210) over the globbed files:
a stat failure silently skips the file (bare `continue`, line 202); a file
whose modification time is strictly before the cutoff is removed, and a
remove failure is printed to stderr.  Returns the names removed and the
stderr lines, in scan order. -/
def sweepList (cutoff : Int) : List DirEntry → List String × List String
  | [] => ([], [])
  | e :: rest =>
    let r := sweepList cutoff rest
    if e.statFails then r
    else if e.modTime < cutoff then
      match e.removeErr with
      | some m => (r.1, ("failed to remove old log file: " ++ m) :: r.2)
      | none => (e.name :: r.1, r.2)
    else r

/-- Method `cleanupOldLogs()` (lines 190-211): glob the archives and sweep them with
cutoff `now - MaxAge`. -/
def cleanupOldLogs (path : String) (now maxAge : Int) (entries : List DirEntry) :
    List String × List String :=
  sweepList (now - maxAge) (entries.filter (fun e => globMatchGz path e.name))

/-! ### The constructor (`New`, lines 68-94, and `openFile`, lines 96-114) -/

/-- The first failing step of `openFile`, or success with the size of the
existing file at the path. -/
inductive ConstrIO where
  | mkdirFail (e : String)
  | openFail (e : String)
  | statFail (e : String)
  | ok (size : Int)
  deriving Repr, DecidableEq

/-- Error reporting of `openFile` (lines 96-114).  Note that the `os.OpenFile`
failure at line 102 is wrapped with the same message as the `os.MkdirAll`
failure at line 98: `"failed to create log directory"`. -/
def openFileE : ConstrIO → Except String Int
  | .mkdirFail e => .error ("failed to create log directory: " ++ e)
  | .openFail e => .error ("failed to create log directory: " ++ e)
  | .statFail e => .error ("failed to get file info: " ++ e)
  | .ok size => .ok size

/-- The constructed logger: the normalized configuration and the initial
counter value. -/
structure LoggerE where
  config : Config
  currentSize : Int
  deriving Repr, DecidableEq

/-- Constructor `New(config)` (lines 68-94): apply the defaults, run `openFile`, and
return the error as-is on failure — no logger value accompanies it. -/
def NewE (cfg : Config) (io : ConstrIO) : Except String LoggerE :=
  let c := defaultConfig cfg
  match openFileE io with
  | .error e => .error e
  | .ok size => .ok { config := c, currentSize := size }

/-! ### Auxiliary predicates and sample configurations -/

/-- The writer-state invariant stated by the spec: the byte counter equals
the byte size of the currently open file. -/
def sizeInv (st : LoggerSt) : Prop :=
  st.currentSize = (utf8Len st.fileContent : Int)

/-- Modelled from the spec: the gzip codec itself lives in Go's
`compress/gzip`, outside `src/`; the spec calls it "a deflate-family codec"
whose decompression "reproduces the original archive's bytes exactly".  It is
modelled as an abstract pair of byte-stream transformers whose composition is
the identity. -/
def LosslessCodec (comp decomp : Bytes → Bytes) : Prop :=
  ∀ b, decomp (comp b) = b

/-- A concrete configuration with a non-default timestamp format, used to
exhibit behaviour on explicit inputs. -/
def kitchenCfg : Config :=
  { filePath := "app.log", maxSize := 100, maxAge := 3600000000000,
    compressOldLogs := false, jsonFormat := false,
    timestampFormat := "15:04:05", rotationCheckInterval := 1000000000 }

/-! ## Theorems

### The escape/decode round trip: an escaped string decodes back verbatim -/

theorem hexVal_hexDigit (n : Nat) (h : n < 16) : hexVal (hexDigit n) = n := by
  have key : ∀ m : Fin 16, hexVal (hexDigit m.val) = m.val := by decide
  exact key ⟨n, h⟩

theorem unesc_uEscape (n : Nat) (hn : n < 65536) (r : List Char) :
    unesc (uEscape n ++ r) = Char.ofNat n :: unesc r := by
  show unesc ('\\' :: 'u' :: hexDigit (n / 4096 % 16) :: hexDigit (n / 256 % 16)
      :: hexDigit (n / 16 % 16) :: hexDigit (n % 16) :: r) = _
  rw [unesc.eq_def]
  simp +decide only [if_true, if_pos]
  rw [hexVal_hexDigit _ (by omega), hexVal_hexDigit _ (by omega),
    hexVal_hexDigit _ (by omega), hexVal_hexDigit _ (by omega)]
  have hrec : 4096 * (n / 4096 % 16) + 256 * (n / 256 % 16) + 16 * (n / 16 % 16) + n % 16 = n := by
    omega
  rw [hrec]

theorem unesc_escChar (c : Char) (r : List Char) :
    unesc (escChar c ++ r) = c :: unesc r := by
  unfold escChar
  split_ifs with h1 h2 h3 h4 h5 h6 h7 h8
  · subst h1; rw [unesc.eq_def]; simp +decide
  · subst h2; rw [unesc.eq_def]; simp +decide
  · subst h3; rw [unesc.eq_def]; simp +decide
  · subst h4; rw [unesc.eq_def]; simp +decide
  · subst h5; rw [unesc.eq_def]; simp +decide
  · rw [unesc_uEscape _ (by omega), Char.ofNat_toNat]
  · have hlt : c.toNat < 65536 := by
      rcases h7 with h | h | h <;> subst h <;> decide
    rw [unesc_uEscape _ hlt, Char.ofNat_toNat]
  · have hlt : c.toNat < 65536 := by omega
    rw [unesc_uEscape _ hlt, Char.ofNat_toNat]
  · rw [List.singleton_append, unesc.eq_def]
    simp [h2]

theorem unesc_flatMap_escChar (l : List Char) : unesc (l.flatMap escChar) = l := by
  induction l with
  | nil => rw [List.flatMap_nil, unesc.eq_def]
  | cons c t ih => rw [List.flatMap_cons, unesc_escChar, ih]

theorem goUnescape_goEscape (s : String) : goUnescape (goEscape s) = s := by
  cases s with
  | mk data => show String.mk (unesc (data.flatMap escChar)) = _
               rw [unesc_flatMap_escChar]

/-! ### Byte lengths and level strings -/

theorem utf8Len_append (a b : String) : utf8Len (a ++ b) = utf8Len a + utf8Len b := by
  unfold utf8Len
  rw [String.data_append, List.map_append, List.sum_append]

theorem levelString_cases (l : Int) :
    levelString l = "DEBUG" ∨ levelString l = "INFO" ∨ levelString l = "WARNING" ∨
    levelString l = "ERROR" ∨ levelString l = "FATAL" ∨ levelString l = "UNKNOWN" := by
  unfold levelString
  split_ifs <;> simp

theorem goEscape_levelString (l : Int) : goEscape (levelString l) = levelString l := by
  rcases levelString_cases l with h | h | h | h | h | h <;> rw [h] <;> decide

/-! ### File-system lemmas -/

theorem fsLookup_fsErase (fs : FS) (p q : String) :
    fsLookup (fsErase fs p) q = if p = q then none else fsLookup fs q := by
  induction fs with
  | nil => simp [fsErase, fsLookup]
  | cons e rest ih =>
    cases e with
    | mk a b =>
      simp only [fsErase, fsLookup]
      split_ifs with h1 h2 h3 <;> simp_all [fsLookup]

theorem fsLookup_fsInsert (fs : FS) (p : String) (d : Bytes) (q : String) :
    fsLookup (fsInsert fs p d) q = if p = q then some d else fsLookup fs q := by
  unfold fsInsert
  simp only [fsLookup]
  rw [fsLookup_fsErase]
  split_ifs <;> rfl

/-! ### String disequalities for archive names -/

theorem ne_backup (p ts : String) : p ≠ p ++ "." ++ ts := by
  intro h
  have hl := congrArg String.length h
  rw [String.length_append, String.length_append] at hl
  have h1 : ("." : String).length = 1 := rfl
  omega

theorem ne_gz (s : String) : s ≠ s ++ ".gz" := by
  intro h
  have hl := congrArg String.length h
  rw [String.length_append] at hl
  have h1 : (".gz" : String).length = 3 := rfl
  omega

theorem ne_backup_gz (p ts : String) : p ≠ (p ++ "." ++ ts) ++ ".gz" := by
  intro h
  have hl := congrArg String.length h
  rw [String.length_append, String.length_append, String.length_append] at hl
  have h1 : ("." : String).length = 1 := rfl
  have h2 : (".gz" : String).length = 3 := rfl
  omega

/-! ### Preservation of the byte-counter invariant -/

theorem sizeInv_openFileSt (c : String) : sizeInv (openFileSt c) := rfl

theorem sizeInv_appendLine (line : String) (ae : Option String) (st : LoggerSt)
    (stderr : List String) (h : sizeInv st) : sizeInv (appendLine line ae st stderr).1 := by
  cases ae with
  | some e => exact h
  | none =>
    unfold appendLine sizeInv at *
    simp only
    rw [utf8Len_append, h]
    push_cast
    ring

theorem sizeInv_stepSys (cfg : Config) (s : SysSt) (ev : LogEv) (h : sizeInv s.logger) :
    sizeInv (stepSys cfg s ev).logger := by
  cases ev with
  | writeEv level msg fmtTime me ae =>
    simp only [stepSys]
    unfold writeStep
    by_cases hj : cfg.jsonFormat
    · simp only [hj, if_true]
      cases me with
      | some e => exact h
      | none => exact sizeInv_appendLine _ _ _ _ h
    · simp only [hj, if_false]
      exact sizeInv_appendLine _ _ _ _ h
  | tickEv =>
    simp only [stepSys]
    unfold rotationTick
    split_ifs
    · exact sizeInv_openFileSt ""
    · exact h

theorem sizeInv_foldl (cfg : Config) (evs : List LogEv) :
    ∀ s : SysSt, sizeInv s.logger → sizeInv ((evs.foldl (stepSys cfg) s)).logger := by
  induction evs with
  | nil => intro s h; exact h
  | cons e t ih => intro s h; exact ih _ (sizeInv_stepSys cfg s e h)

/-! ### Behaviour of the retention sweep loop -/

theorem sweepList_removed_spec (cutoff : Int) (l : List DirEntry) (n : String)
    (hn : n ∈ (sweepList cutoff l).1) :
    ∃ e, e ∈ l ∧ e.name = n ∧ e.modTime < cutoff ∧ e.statFails = false ∧
      e.removeErr = none := by
  induction l with
  | nil => simp [sweepList] at hn
  | cons e rest ih =>
    simp only [sweepList] at hn
    by_cases hs : e.statFails
    · rw [if_pos hs] at hn
      obtain ⟨f, hf, h2⟩ := ih hn
      exact ⟨f, List.mem_cons_of_mem _ hf, h2⟩
    · rw [if_neg hs] at hn
      by_cases hm : e.modTime < cutoff
      · rw [if_pos hm] at hn
        cases hre : e.removeErr with
        | some m =>
          rw [hre] at hn
          simp only at hn
          obtain ⟨f, hf, h2⟩ := ih hn
          exact ⟨f, List.mem_cons_of_mem _ hf, h2⟩
        | none =>
          rw [hre] at hn
          simp only [List.mem_cons] at hn
          rcases hn with h | h
          · exact ⟨e, List.mem_cons_self e rest, h.symm, hm, Bool.eq_false_iff.mpr hs, hre⟩
          · obtain ⟨f, hf, h2⟩ := ih h
            exact ⟨f, List.mem_cons_of_mem _ hf, h2⟩
      · rw [if_neg hm] at hn
        obtain ⟨f, hf, h2⟩ := ih hn
        exact ⟨f, List.mem_cons_of_mem _ hf, h2⟩

theorem sweepList_removes (cutoff : Int) (l : List DirEntry) (e : DirEntry)
    (he : e ∈ l) (hs : e.statFails = false) (hm : e.modTime < cutoff)
    (hr : e.removeErr = none) : e.name ∈ (sweepList cutoff l).1 := by
  induction l with
  | nil => cases he
  | cons f rest ih =>
    simp only [sweepList]
    rcases List.mem_cons.mp he with hef | hef
    · subst hef
      rw [if_neg (by rw [hs]; exact Bool.false_ne_true), if_pos hm, hr]
      exact List.mem_cons_self _ _
    · have hmem := ih hef
      by_cases hfs : f.statFails
      · rw [if_pos hfs]; exact hmem
      · rw [if_neg hfs]
        by_cases hfm : f.modTime < cutoff
        · rw [if_pos hfm]
          cases hfr : f.removeErr with
          | some m => exact hmem
          | none => exact List.mem_cons_of_mem _ hmem
        · rw [if_neg hfm]; exact hmem

theorem sweepList_logs (cutoff : Int) (l : List DirEntry) (e : DirEntry) (m : String)
    (he : e ∈ l) (hs : e.statFails = false) (hm : e.modTime < cutoff)
    (hr : e.removeErr = some m) :
    ("failed to remove old log file: " ++ m) ∈ (sweepList cutoff l).2 := by
  induction l with
  | nil => cases he
  | cons f rest ih =>
    simp only [sweepList]
    rcases List.mem_cons.mp he with hef | hef
    · subst hef
      rw [if_neg (by rw [hs]; exact Bool.false_ne_true), if_pos hm, hr]
      exact List.mem_cons_self _ _
    · have hmem := ih hef
      by_cases hfs : f.statFails
      · rw [if_pos hfs]; exact hmem
      · rw [if_neg hfs]
        by_cases hfm : f.modTime < cutoff
        · rw [if_pos hfm]
          cases hfr : f.removeErr with
          | some k => exact List.mem_cons_of_mem _ hmem
          | none => exact hmem
        · rw [if_neg hfm]; exact hmem

theorem globMatchGz_gz_suffix (path name : String) (h : globMatchGz path name = true) :
    (".gz" : String).data.isSuffixOf name.data = true := by
  unfold globMatchGz at h
  simp only [Bool.and_eq_true] at h
  exact h.1.1.2

/-! ## Claim theorems -/

/-- C10: `LogLevel.String` is total over all integer level values: it maps
the five defined constants to "DEBUG", "INFO", "WARNING", "ERROR", "FATAL"
and every other value to "UNKNOWN", never failing. -/
theorem C10_levelString_total (l : Int) :
    levelString l ∈ (["DEBUG", "INFO", "WARNING", "ERROR", "FATAL", "UNKNOWN"] : List String) ∧
    levelString levelDebug = "DEBUG" ∧ levelString levelInfo = "INFO" ∧
    levelString levelWarning = "WARNING" ∧ levelString levelError = "ERROR" ∧
    levelString levelFatal = "FATAL" ∧
    (l ≠ levelDebug → l ≠ levelInfo → l ≠ levelWarning → l ≠ levelError → l ≠ levelFatal →
      levelString l = "UNKNOWN") := by
  refine ⟨?_, rfl, rfl, rfl, rfl, rfl, ?_⟩
  · rcases levelString_cases l with h | h | h | h | h | h <;> rw [h] <;> simp
  · intro h0 h1 h2 h3 h4
    unfold levelString
    rw [if_neg h0, if_neg h1, if_neg h2, if_neg h3, if_neg h4]

/-- Witness for C10 at the undefined level value 7. -/
theorem C10_levelString_total_witness : levelString 7 = "UNKNOWN" :=
  (C10_levelString_total 7).2.2.2.2.2.2 (by decide) (by decide) (by decide) (by decide)
    (by decide)

/-- C4: a scheduler tick invokes rotation if and only if the byte counter is
at least the configured max size; below the threshold the tick leaves the
state untouched and does not rotate. -/
theorem C4_tick_threshold (maxSize : Int) (st : LoggerSt) :
    ((rotationTick maxSize st).2 = true ↔ maxSize ≤ st.currentSize) ∧
    (st.currentSize < maxSize → rotationTick maxSize st = (st, false)) := by
  constructor
  · unfold rotationTick
    split_ifs with h
    · simpa using h
    · simpa using h
  · intro h
    unfold rotationTick
    rw [if_neg (by omega)]

/-- Witness for C4: with counter 5 and max size 10 the tick does not rotate;
the rotation condition is the `≥` comparison. -/
theorem C4_tick_threshold_witness :
    rotationTick 10 { fileContent := "", currentSize := 5 } =
      ({ fileContent := "", currentSize := 5 }, false) ∧
    ((rotationTick 10 { fileContent := "", currentSize := 5 }).2 = true ↔ (10 : Int) ≤ 5) :=
  ⟨(C4_tick_threshold 10 { fileContent := "", currentSize := 5 }).2 (by decide),
   (C4_tick_threshold 10 { fileContent := "", currentSize := 5 }).1⟩

/-- C2 (code bug): `write` renders the timestamp with the constant layout
`time.RFC3339` (line 218), not with the configured `TimestampFormat`.  With a
configuration whose timestamp format is "15:04:05" — which survives
defaulting unchanged — the layout handed to `time.Now().Format` by `write` is
still the RFC 3339 layout, for both encodings, since both read
`entry.Timestamp`. -/
theorem C2_timestamp_layout_bug :
    (defaultConfig kitchenCfg).timestampFormat = "15:04:05" ∧
    writeTimestampLayout kitchenCfg = "2006-01-02T15:04:05Z07:00" ∧
    writeTimestampLayout kitchenCfg ≠ kitchenCfg.timestampFormat ∧
    (∀ fmtTime : String → String, ∀ level : Int, ∀ msg : String,
      (mkEntry kitchenCfg fmtTime level msg).timestamp = fmtTime rfc3339Layout) :=
  ⟨by decide, rfl, by decide, fun _ _ _ => rfl⟩

/-- C8 (code bug): all three constructor-time failures are returned
synchronously as errors — no logger value is produced — but the `os.OpenFile`
failure is wrapped with the directory-creation context (line 102 repeats the
line 98 message) instead of a context describing the file-open step. -/
theorem C8_constructor_error_context :
    NewE kitchenCfg (.mkdirFail "permission denied")
      = .error "failed to create log directory: permission denied" ∧
    NewE kitchenCfg (.openFail "is a directory")
      = .error "failed to create log directory: is a directory" ∧
    NewE kitchenCfg (.statFail "bad descriptor")
      = .error "failed to get file info: bad descriptor" ∧
    (∀ cfg : Config, ∀ io : ConstrIO, ∀ e : String,
      openFileE io = .error e → NewE cfg io = .error e) := by
  refine ⟨rfl, rfl, rfl, fun cfg io e h => ?_⟩
  unfold NewE
  rw [h]

/-- Witness for C8 at a concrete stat failure. -/
theorem C8_constructor_error_context_witness :
    NewE kitchenCfg (.statFail "x") = .error "failed to get file info: x" :=
  C8_constructor_error_context.2.2.2 kitchenCfg (.statFail "x")
    "failed to get file info: x" rfl

/-- C1: a successful `write` appends exactly one newline-terminated chunk to
the file and prints nothing to stderr; the chunk matches the documented
schema — plain `<timestamp> - [<LEVEL>]: <message>\n`, or one JSON object
with the fields `timestamp`, `level`, `message` — and the level string and
message are preserved verbatim: the level strings are fixed points of the
JSON escaper and the escaped message decodes back to the original. -/
theorem C1_write_line_schema (cfg : Config) (fmtTime : String → String) (level : Int)
    (msg : String) (st : LoggerSt) (stderr : List String) :
    writeStep cfg fmtTime level msg none none st stderr
      = ({ fileContent := st.fileContent ++ writeLogLine cfg (mkEntry cfg fmtTime level msg),
           currentSize := st.currentSize
             + (utf8Len (writeLogLine cfg (mkEntry cfg fmtTime level msg)) : Int) }, stderr) ∧
    writeLogLine cfg (mkEntry cfg fmtTime level msg)
      = (if cfg.jsonFormat then
           "\x7b\"timestamp\":\"" ++ goEscape (fmtTime rfc3339Layout)
             ++ "\",\"level\":\"" ++ goEscape (levelString level)
             ++ "\",\"message\":\"" ++ goEscape msg ++ "\"\x7d" ++ "\n"
         else
           fmtTime rfc3339Layout ++ " - [" ++ levelString level ++ "]: " ++ msg ++ "\n") ∧
    goUnescape (goEscape msg) = msg ∧
    goEscape (levelString level) = levelString level := by
  refine ⟨?_, ?_, goUnescape_goEscape msg, goEscape_levelString level⟩
  · unfold writeStep
    by_cases hj : cfg.jsonFormat
    · rw [if_pos hj]; rfl
    · rw [if_neg hj]; rfl
  · unfold writeLogLine jsonMarshalEntry mkEntry writeTimestampLayout
    by_cases hj : cfg.jsonFormat
    · rw [if_pos hj]
    · rw [if_neg hj]

/-- C3: along every trace of lock-serialized operations — construction on a
file with arbitrary pre-existing content, successful and failed writes,
scheduler ticks with their rotations — the byte counter equals the byte size
of the currently open file: it is synced from the file's size when the file
is opened and each successful write adds exactly the byte count appended. -/
theorem C3_byte_counter_invariant (cfg : Config) (existing : String) (evs : List LogEv) :
    (runLogger cfg existing evs).logger.currentSize
      = (utf8Len (runLogger cfg existing evs).logger.fileContent : Int) ∧
    (openFileSt existing).currentSize = (utf8Len existing : Int) ∧
    (∀ line st stderr, (appendLine line none st stderr).1.currentSize
        = st.currentSize + (utf8Len line : Int) ∧
      (appendLine line none st stderr).1.fileContent = st.fileContent ++ line) := by
  refine ⟨?_, rfl, fun line st stderr => ⟨rfl, rfl⟩⟩
  exact sizeInv_foldl cfg evs _ (sizeInv_openFileSt existing)

/-- C5: `write` returns no error to its caller in any outcome; when JSON
marshalling fails the error is printed to stderr, the message is dropped, and
both the byte counter and the file content are untouched; when the append
fails the error is printed to stderr, the message is dropped, and the byte
counter is untouched. -/
theorem C5_write_failure_isolation (cfg : Config) (fmtTime : String → String) (level : Int)
    (msg e : String) (st : LoggerSt) (stderr : List String) :
    (cfg.jsonFormat = true → ∀ appendErr,
      writeStep cfg fmtTime level msg (some e) appendErr st stderr
        = (st, stderr ++ ["failed to marshal log entry: " ++ e])) ∧
    writeStep cfg fmtTime level msg none (some e) st stderr
      = (st, stderr ++ ["failed to write to log file: " ++ e]) := by
  constructor
  · intro hj appendErr
    unfold writeStep
    rw [if_pos hj]
  · unfold writeStep
    by_cases hj : cfg.jsonFormat
    · rw [if_pos hj]; rfl
    · rw [if_neg hj]; rfl

/-- Witness for C5: a JSON-format configuration on which the marshal failure
leaves the state unchanged and logs one stderr line. -/
theorem C5_write_failure_isolation_witness :
    writeStep { kitchenCfg with jsonFormat := true } (fun l => l) 1 "hello" (some "boom") none
        { fileContent := "x", currentSize := 1 } []
      = ({ fileContent := "x", currentSize := 1 }, ["failed to marshal log entry: boom"]) :=
  (C5_write_failure_isolation { kitchenCfg with jsonFormat := true } (fun l => l) 1 "hello"
    "boom" { fileContent := "x", currentSize := 1 } []).1 rfl none

/-- C6 counterexample: the deferred `gzWriter.Close()` error is discarded by
`compressFile` (lines 180-181), so when the compressed stream fails at close
time — here, zero of its bytes reached the destination — the job still
reports success and deletes the uncompressed source, even though the
destination holds `[]` rather than the compressed image of `[1, 2, 3]`.  The
claim "on any compression failure (…, partial write) the uncompressed source
file is left in place" is therefore false. -/
theorem C6_counterexample :
    fsLookup (compressJob (fun b => b) [("app.log.T", [1, 2, 3])] "app.log.T"
        none none none (some 0) none []).1 "app.log.T" = none ∧
    fsLookup (compressJob (fun b => b) [("app.log.T", [1, 2, 3])] "app.log.T"
        none none none (some 0) none []).1 ("app.log.T" ++ ".gz") = some [] ∧
    (fun b => b : Bytes → Bytes) [1, 2, 3] ≠ [] := by
  refine ⟨by decide, by decide, by decide⟩

/-- C6 (amended): the compression goroutine deletes the uncompressed source
only when `compressFile` *reports* success and `os.Remove` succeeds; on any
reported failure — open error, create error, copy error — the source is left
exactly as it was and one line is appended to stderr.  (Errors surfacing at
the deferred close of the gzip stream are discarded and do not count as
reported failures, per the counterexample.) -/
theorem C6_amended_source_retention (comp : Bytes → Bytes) (fs : FS) (backup : String)
    (oe ce pe : Option String) (cp : Option Nat) (re : Option String) (stderr : List String) :
    ((compressFile comp fs backup (backup ++ ".gz") oe ce pe cp).2.isSome = true →
      fsLookup (compressJob comp fs backup oe ce pe cp re stderr).1 backup
        = fsLookup fs backup ∧
      (compressJob comp fs backup oe ce pe cp re stderr).2.length = stderr.length + 1) ∧
    (fsLookup (compressJob comp fs backup oe ce pe cp re stderr).1 backup = none →
      fsLookup fs backup = none ∨
        ((compressFile comp fs backup (backup ++ ".gz") oe ce pe cp).2 = none ∧
          re = none)) := by
  have hgz : (backup ++ ".gz") ≠ backup := Ne.symm (ne_gz backup)
  unfold compressJob compressFile
  cases hlook : fsLookup fs backup with
  | none =>
    exact ⟨fun _ => ⟨hlook, by simp⟩, fun _ => Or.inl rfl⟩
  | some d =>
    cases oe with
    | some e1 =>
      refine ⟨fun _ => ⟨hlook, by simp⟩, fun h => absurd (hlook ▸ h) (by simp)⟩
    | none =>
      cases ce with
      | some e2 =>
        refine ⟨fun _ => ⟨hlook, by simp⟩, fun h => absurd (hlook ▸ h) (by simp)⟩
      | none =>
        cases pe with
        | some e3 =>
          refine ⟨fun _ => ?_, fun h => ?_⟩
          · refine ⟨?_, by simp⟩
            rw [fsLookup_fsInsert, if_neg hgz, hlook]
          · rw [fsLookup_fsInsert, if_neg hgz, hlook] at h
            exact absurd h (by simp)
        | none =>
          cases cp with
          | none =>
            refine ⟨fun hfail => absurd hfail (by simp), fun _ => ?_⟩
            cases re with
            | some e4 => simp_all [fsLookup_fsInsert, if_neg hgz]
            | none => exact Or.inr ⟨rfl, rfl⟩
          | some k =>
            refine ⟨fun hfail => absurd hfail (by simp), fun _ => ?_⟩
            cases re with
            | some e4 => simp_all [fsLookup_fsInsert, if_neg hgz]
            | none => exact Or.inr ⟨rfl, rfl⟩

/-- Witness for C6 (amended): a concrete open failure leaves the source in
place and logs one line. -/
theorem C6_amended_source_retention_witness :
    fsLookup (compressJob (fun b => b) [("b", [1])] "b" (some "denied") none none none
        none []).1 "b" = fsLookup [("b", [1])] "b" ∧
    (compressJob (fun b => b) [("b", [1])] "b" (some "denied") none none none none []).2.length
      = List.length ([] : List String) + 1 :=
  (C6_amended_source_retention (fun b => b) [("b", [1])] "b" (some "denied") none none none
    none []).1 (by decide)

/-- C7: with compression enabled, once a rotation at timestamp `ts` and its
background compression have both completed, the uncompressed archive
`<path>.<ts>` no longer exists, the `<path>.<ts>.gz` sibling holds the
compressed image of the archived bytes, decompressing it reproduces those
bytes exactly (round trip, via the spec-modelled lossless codec), the live
path holds a fresh empty file, and nothing was printed to stderr. -/
theorem C7_rotation_compression_roundtrip (comp decomp : Bytes → Bytes)
    (hcodec : LosslessCodec comp decomp) (fs : FS) (path ts : String) (data : Bytes)
    (hlive : fsLookup fs path = some data) :
    (rotateFS fs path ts none).2 = some (path ++ "." ++ ts) ∧
    fsLookup (compressJob comp (rotateFS fs path ts none).1 (path ++ "." ++ ts)
        none none none none none []).1 (path ++ "." ++ ts) = none ∧
    fsLookup (compressJob comp (rotateFS fs path ts none).1 (path ++ "." ++ ts)
        none none none none none []).1 ((path ++ "." ++ ts) ++ ".gz") = some (comp data) ∧
    decomp (comp data) = data ∧
    fsLookup (compressJob comp (rotateFS fs path ts none).1 (path ++ "." ++ ts)
        none none none none none []).1 path = some [] ∧
    (compressJob comp (rotateFS fs path ts none).1 (path ++ "." ++ ts)
        none none none none none []).2 = [] := by
  have hpb : path ≠ path ++ "." ++ ts := ne_backup path ts
  have hbg : path ++ "." ++ ts ≠ (path ++ "." ++ ts) ++ ".gz" := ne_gz _
  have hpg : path ≠ (path ++ "." ++ ts) ++ ".gz" := ne_backup_gz path ts
  have hrot : rotateFS fs path ts none
      = (fsInsert (fsInsert (fsErase fs path) (path ++ "." ++ ts) data) path [],
         some (path ++ "." ++ ts)) := by
    unfold rotateFS
    rw [hlive]
  rw [hrot]
  have hfs2b : fsLookup (fsInsert (fsInsert (fsErase fs path) (path ++ "." ++ ts) data) path [])
      (path ++ "." ++ ts) = some data := by
    rw [fsLookup_fsInsert, if_neg hpb, fsLookup_fsInsert, if_pos rfl]
  have hjob : compressJob comp
      (fsInsert (fsInsert (fsErase fs path) (path ++ "." ++ ts) data) path [])
      (path ++ "." ++ ts) none none none none none []
      = (fsErase (fsInsert
          (fsInsert (fsInsert (fsErase fs path) (path ++ "." ++ ts) data) path [])
          ((path ++ "." ++ ts) ++ ".gz") (comp data)) (path ++ "." ++ ts), []) := by
    unfold compressJob compressFile
    rw [hfs2b]
  rw [hjob]
  refine ⟨rfl, ?_, ?_, hcodec data, ?_, rfl⟩
  · rw [fsLookup_fsErase, if_pos rfl]
  · rw [fsLookup_fsErase, if_neg hbg, fsLookup_fsInsert, if_pos rfl]
  · rw [fsLookup_fsErase, if_neg (Ne.symm hpb), fsLookup_fsInsert,
      if_neg (Ne.symm hpg), fsLookup_fsInsert, if_pos rfl]

/-- Witness for C7: the identity codec on a two-byte live file. -/
theorem C7_rotation_compression_roundtrip_witness :
    LosslessCodec (fun b => b) (fun b => b) ∧
    fsLookup [("a", [1, 2])] "a" = some [1, 2] ∧
    (rotateFS [("a", [1, 2])] "a" "t" none).2 = some ("a" ++ "." ++ "t") ∧
    fsLookup (compressJob (fun b => b) (rotateFS [("a", [1, 2])] "a" "t" none).1
        ("a" ++ "." ++ "t") none none none none none []).1 ("a" ++ "." ++ "t") = none ∧
    fsLookup (compressJob (fun b => b) (rotateFS [("a", [1, 2])] "a" "t" none).1
        ("a" ++ "." ++ "t") none none none none none []).1 (("a" ++ "." ++ "t") ++ ".gz")
      = some [1, 2] :=
  ⟨fun b => rfl, by decide,
   (C7_rotation_compression_roundtrip (fun b => b) (fun b => b) (fun b => rfl)
     [("a", [1, 2])] "a" "t" [1, 2] (by decide)).1,
   (C7_rotation_compression_roundtrip (fun b => b) (fun b => b) (fun b => rfl)
     [("a", [1, 2])] "a" "t" [1, 2] (by decide)).2.1,
   (C7_rotation_compression_roundtrip (fun b => b) (fun b => b) (fun b => rfl)
     [("a", [1, 2])] "a" "t" [1, 2] (by decide)).2.2.1⟩

/-- C9 counterexample: a per-file stat failure is skipped *silently* — the
loop body is a bare `continue` (line 202) with no stderr report — so on a
matching old archive whose stat fails, nothing is removed and nothing is
logged, contradicting "every per-file stat or delete failure is both logged
to the error stream and skipped". -/
theorem C9_counterexample :
    cleanupOldLogs "app.log" 100 1
        [{ name := "app.log.T.gz", modTime := 0, statFails := true, removeErr := none }]
      = ([], []) := by
  decide

/-- C9 (amended): delete failures are logged to stderr and skipped; stat
failures are skipped silently; neither aborts the sweep of the remaining
files — every eligible file is removed and every delete failure is logged
regardless of failures elsewhere in the list; and only files matching the
`<path>.*.gz` glob whose modification time is strictly older than now minus
max age are ever removed. -/
theorem C9_amended_sweep (path : String) (now maxAge : Int) (entries : List DirEntry) :
    (∀ n, n ∈ (cleanupOldLogs path now maxAge entries).1 →
      (".gz" : String).data.isSuffixOf n.data = true ∧
      ∃ e, e ∈ entries ∧ e.name = n ∧ globMatchGz path e.name = true ∧
        e.modTime < now - maxAge ∧ e.statFails = false ∧ e.removeErr = none) ∧
    (∀ e, e ∈ entries → globMatchGz path e.name = true → e.statFails = false →
      e.modTime < now - maxAge →
      (e.removeErr = none → e.name ∈ (cleanupOldLogs path now maxAge entries).1) ∧
      (∀ m, e.removeErr = some m →
        ("failed to remove old log file: " ++ m) ∈ (cleanupOldLogs path now maxAge entries).2)) := by
  constructor
  · intro n hn
    obtain ⟨e, hmem, hname, hmod, hstat, hrem⟩ :=
      sweepList_removed_spec (now - maxAge) _ n hn
    rw [List.mem_filter] at hmem
    refine ⟨?_, e, hmem.1, hname, hmem.2, hmod, hstat, hrem⟩
    rw [← hname]
    exact globMatchGz_gz_suffix path e.name hmem.2
  · intro e hmem hglob hstat hmod
    have hfil : e ∈ entries.filter (fun f => globMatchGz path f.name) :=
      List.mem_filter.mpr ⟨hmem, hglob⟩
    exact ⟨fun hrem => sweepList_removes _ _ _ hfil hstat hmod hrem,
      fun m hrem => sweepList_logs _ _ _ m hfil hstat hmod hrem⟩

/-- Witness for C9 (amended): one strictly-old matching archive is removed. -/
theorem C9_amended_sweep_witness :
    "a.1.gz" ∈ (cleanupOldLogs "a" 10 1
      [{ name := "a.1.gz", modTime := 0, statFails := false, removeErr := none }]).1 :=
  ((C9_amended_sweep "a" 10 1
      [{ name := "a.1.gz", modTime := 0, statFails := false, removeErr := none }]).2
    { name := "a.1.gz", modTime := 0, statFails := false, removeErr := none }
    (by simp) (by decide) rfl (by decide)).1 rfl

end ChronoLog
